import Mathlib

set_option maxRecDepth 8000

/-!
Shallow embedding of the Skyjo prototype game engine
(`src/SkyjoApp.tsx`): deck building, dealing, the initial-reveal phase,
and the play-phase turn loop.  React `useState` fields become fields of a
`GameState` record; each handler becomes a pure function
`GameState → ... → GameState`.  Within one handler invocation the React
state variables are the committed (pre-event) snapshot, and functional
`setX` updates are applied on commit — the embedding therefore reads all
inputs from the incoming state `s` and builds the successor state in one
step, mirroring the snapshot semantics precisely (in particular the
starter-selection sums, which the source computes from the stale
`players` snapshot).
-/

namespace Skyjo

/-- `interface CardT`: `id` (the `uid()` string, modelled as the numeric
counter it embeds), `value`, `faceUp`. -/
structure Card where
  id : Nat
  value : Int
  faceUp : Bool
deriving DecidableEq

/-- `interface PlayerT`: id, display name, and the 12-card hand. -/
structure Player where
  id : Nat
  name : String
  cards : List Card
deriving DecidableEq

/-- The `phase` state variable: `"start" | "reveal" | "play"`. -/
inductive Phase where
  | start
  | reveal
  | play
deriving DecidableEq

/-- The component's game-relevant `useState` fields.  `message` is a
presentation-only string and is omitted.  `revealTargets` is a JS record
keyed by player id; ids are assigned as the positions 0..n-1, so the
record is modelled as a list indexed by id (reads use the source's
`|| 0` default). -/
structure GameState where
  phase : Phase
  players : List Player
  deck : List Card
  discard : List Card
  currentPlayer : Nat
  revealTargets : List Nat
  drawnCard : Option Card
deriving DecidableEq

def defaultCard : Card := { id := 0, value := 0, faceUp := false }

def defaultPlayer : Player := { id := 0, name := "", cards := [] }

/-- JS object spread of a possibly-`undefined` card with `faceUp`
overridden, as in the source's `... faceUp: b` object literals.
Spreading `undefined` contributes no fields, so `value` and `id` of the
result are `undefined`; we render them as 0.  No theorem below inspects
the `value`/`id` of an entry produced from the `none` case. -/
def jsSpread (c : Option Card) (b : Bool) : Card :=
  match c with
  | some c => { c with faceUp := b }
  | none => { id := 0, value := 0, faceUp := b }

/-- JS array element assignment `a[i] = c`.  In range it overwrites; at
or beyond the length it extends the array, padding skipped positions
with holes (holes read back as `undefined`; we render such a hole as
`defaultCard` — no theorem below reads a hole). -/
def jsArraySet (l : List Card) (i : Nat) (c : Card) : List Card :=
  if i < l.length then l.set i c
  else l ++ List.replicate (i - l.length) defaultCard ++ [c]

/-- One Fisher–Yates swap `[a[i], a[j]] = [a[j], a[i]]`, via indices.
If either index is out of range the list is returned unchanged (in the
source `j ≤ i < length` always holds). -/
def swapIdx {α : Type} (l : List α) (i j : Nat) : List α :=
  match l.get? i, l.get? j with
  | some a, some b => (l.set i b).set j a
  | _, _ => l

/-- The `for (let i = a.length - 1; i > 0; i--)` loop of `shuffle`,
with the stream of random draws `j = floor(random()*(i+1))` supplied
explicitly as `js` (one entry consumed per iteration; a missing entry is
read as 0, a legitimate draw). -/
def fyAux {α : Type} : Nat → List Nat → List α → List α
  | 0, _, a => a
  | i + 1, js, a => fyAux i js.tail (swapIdx a (i + 1) (js.headD 0))

/-- `function shuffle<T>(arr: T[]): T[]` — Fisher–Yates on a copy,
parameterised by the random draws. -/
def shuffle {α : Type} (js : List Nat) (arr : List α) : List α :=
  fyAux (arr.length - 1) js arr

/-- `CARD_DISTRIBUTION`, in source (insertion) order. -/
def CARD_DISTRIBUTION : List (Int × Nat) :=
  [(-2, 5), (-1, 10), (0, 15), (1, 10), (2, 10), (3, 10), (4, 10),
   (5, 10), (6, 10), (7, 8), (8, 8), (9, 8), (10, 8), (11, 8), (12, 8)]

/-- `Object.entries(CARD_DISTRIBUTION)` enumeration order: JS lists the
array-index-like keys `0..12` first in ascending numeric order, then the
remaining keys `-2`, `-1` in insertion order. -/
def entriesOrder : List (Int × Nat) :=
  [(0, 15), (1, 10), (2, 10), (3, 10), (4, 10), (5, 10), (6, 10),
   (7, 8), (8, 8), (9, 8), (10, 8), (11, 8), (12, 8), (-2, 5), (-1, 10)]

/-- A run of `n` face-down cards of one value; `uid()` yields a fresh id
per card, modelled as consecutive counter values. -/
def mkRun (startId : Nat) (v : Int) (n : Nat) : List Card :=
  (List.range n).map fun k => { id := startId + k, value := v, faceUp := false }

/-- The `forEach` push loop of `buildDeck` over the entries. -/
def mkCards : Nat → List (Int × Nat) → List Card
  | _, [] => []
  | cnt, (v, n) :: rest => mkRun cnt v n ++ mkCards (cnt + n) rest

/-- The deck contents before shuffling, in `Object.entries` order. -/
def baseDeck : List Card := mkCards 0 entriesOrder

/-- `function buildDeck(): CardT[]`, parameterised by the shuffle's
random draws. -/
def buildDeck (js : List Nat) : List Card := shuffle js baseDeck

/-- `sum(p.cards.filter(c => c.faceUp).map(c => c.value))` — the visible
sum of a player's hand. -/
def visibleSum (p : Player) : Int :=
  ((p.cards.filter fun c => c.faceUp).map Card.value).sum

/-- `Math.max(...sums)`.  On an empty array JS yields `-Infinity`; the
reveal phase always has at least one player, so that case is unreachable
and rendered as 0. -/
def jsMaxList : List Int → Int
  | [] => 0
  | h :: t => t.foldl max h

/-- `sums.indexOf(x)`.  JS returns -1 when absent; here the maximum of a
nonempty list is always a member, so the absent case is unreachable and
rendered as the list's length. -/
def jsIndexOf : List Int → Int → Nat
  | [], _ => 0
  | h :: t, x => if h = x then 0 else jsIndexOf t x + 1

/-- Twelve iterations of `d.pop()!` followed by `... faceUp: false`:
returns the dealt hand (first pop first) and the remaining deck. -/
def popN : Nat → List Card → List Card × List Card
  | 0, d => ([], d)
  | n + 1, d =>
      let c := jsSpread d.getLast? false
      let rest := popN n d.dropLast
      (c :: rest.1, rest.2)

/-- The `Array.from({length: playerCount}).map(...)` dealing loop of
`startGame`: sequential 12-card hands popped from the deck end, player
ids and names assigned by position. -/
def dealFrom : Nat → Nat → List Card → List Player × List Card
  | _, 0, d => ([], d)
  | i, n + 1, d =>
      let h := popN 12 d
      let rest := dealFrom (i + 1) n h.2
      ({ id := i, name := "Spieler " ++ toString (i + 1), cards := h.1 } :: rest.1,
       rest.2)

/-- `function startGame()`.  The source never writes `drawnCard` here;
`startGame` is only reachable from the start screen, where `drawnCard`
is `null` (its initial value, also restored by `resetGame`), so the
produced state carries `drawnCard := none`. -/
def startGame (js : List Nat) (playerCount : Nat) : GameState :=
  let d0 := buildDeck js
  let dealt := dealFrom 0 playerCount d0
  let firstDiscard := jsSpread dealt.2.getLast? true
  { phase := Phase.reveal
    players := dealt.1
    deck := dealt.2.dropLast
    discard := [firstDiscard]
    currentPlayer := 0
    revealTargets := List.replicate playerCount 0
    drawnCard := none }

/-- `function handleInitFlip(pIndex, cIndex)` — the `revealCard`
operation of the spec.  Note two source behaviours embedded exactly:
the `setPlayers` updater returns `prev` when the target card is already
face-up, but the code after it still increments the reveal counter and
may advance the turn; and the starter-selection `sums` are computed from
the stale `players` snapshot, i.e. without the flip performed by this
very call. -/
def handleInitFlip (s : GameState) (pIndex cIndex : Nat) : GameState :=
  if s.phase ≠ Phase.reveal then s
  else if pIndex ≠ s.currentPlayer then s
  else
    let p := s.players.getD pIndex defaultPlayer
    let revealed := s.revealTargets.getD p.id 0
    if 2 ≤ revealed then s
    else
      let players' :=
        if (p.cards.get? cIndex).elim false Card.faceUp then s.players
        else s.players.set pIndex
          { p with cards := jsArraySet p.cards cIndex (jsSpread (p.cards.get? cIndex) true) }
      let rt' := s.revealTargets.set p.id (revealed + 1)
      if revealed + 1 = 2 then
        if s.currentPlayer + 1 < s.players.length then
          { s with players := players', revealTargets := rt',
                   currentPlayer := s.currentPlayer + 1 }
        else
          let sums := s.players.map visibleSum
          { s with players := players', revealTargets := rt',
                   currentPlayer := jsIndexOf sums (jsMaxList sums),
                   phase := Phase.play }
      else
        { s with players := players', revealTargets := rt' }

/-- `function endTurn()`: clears the drawn card and advances the turn
cyclically.  With no players JS computes `(i+1) % 0 = NaN`; in Lean
`% 0` leaves `currentPlayer + 1` — unreachable, every post-start state
has players. -/
def endTurn (s : GameState) : GameState :=
  { s with drawnCard := none,
           currentPlayer := (s.currentPlayer + 1) % s.players.length }

/-- `function drawFromDeck()`. -/
def drawFromDeck (s : GameState) : GameState :=
  if s.phase ≠ Phase.play then s
  else if s.drawnCard.isSome then s
  else
    match s.deck.getLast? with
    | none => s
    | some c =>
        { s with deck := s.deck.dropLast, drawnCard := some { c with faceUp := true } }

/-- `function takeFromDiscard()` — the popped card is spread-copied into
`drawnCard` unchanged (its `faceUp` is not rewritten). -/
def takeFromDiscard (s : GameState) : GameState :=
  if s.phase ≠ Phase.play then s
  else if s.drawnCard.isSome then s
  else
    match s.discard.getLast? with
    | none => s
    | some c => { s with discard := s.discard.dropLast, drawnCard := some c }

/-- `function placeDrawnAt(index)`.  The only guard is the presence of a
drawn card; the slot index is unchecked, so an out-of-range index
extends the active player's hand via `jsArraySet` and pushes the spread
of an `undefined` slot onto the discard, exactly as the JS does. -/
def placeDrawnAt (s : GameState) (index : Nat) : GameState :=
  match s.drawnCard with
  | none => s
  | some dc =>
      let pl := s.players.getD s.currentPlayer defaultPlayer
      let replaced := pl.cards.get? index
      let cards' := jsArraySet pl.cards index { dc with faceUp := true }
      let players' := s.players.set s.currentPlayer { pl with cards := cards' }
      endTurn { s with players := players', discard := s.discard ++ [jsSpread replaced true] }

/-- `function discardDrawnAndFlip(indexToFlip?)` — the `discardAndFlip`
operation of the spec.  With an out-of-range `indexToFlip` the source
throws (`cards[indexToFlip].faceUp` on `undefined`); the UI only ever
supplies `findFirstFaceDownIndex`, which is in range or absent, and no
theorem below uses an out-of-range index — that case is rendered as "no
flip". -/
def discardDrawnAndFlip (s : GameState) (indexToFlip : Option Nat) : GameState :=
  match s.drawnCard with
  | none => s
  | some dc =>
      let s1 := { s with discard := s.discard ++ [{ dc with faceUp := true }],
                         drawnCard := none }
      let s2 :=
        match indexToFlip with
        | none => s1
        | some i =>
            let pl := s1.players.getD s1.currentPlayer defaultPlayer
            match pl.cards.get? i with
            | none => s1
            | some c =>
                if c.faceUp then
                  { s1 with players := s1.players.set s1.currentPlayer pl }
                else
                  let pl' := { pl with cards := pl.cards.set i { c with faceUp := true } }
                  { s1 with players := s1.players.set s1.currentPlayer pl' }
      endTurn s2

/-- `findFirstFaceDownIndex(cards)`: index of the first face-down card,
absent when all are face-up. -/
def findFirstFaceDownIndex (cards : List Card) : Option Nat :=
  match cards.findIdx? fun c => !c.faceUp with
  | some i => some i
  | none => none

/-- Number of cards held in all hands. -/
def handCards (s : GameState) : Nat :=
  (s.players.map fun p => p.cards.length).sum

/-- One if a drawn card is held, else zero. -/
def drawnCount (s : GameState) : Nat :=
  match s.drawnCard with
  | some _ => 1
  | none => 0

/-- Cards in deck + discard + all hands + the drawn-card slot. -/
def totalCards (s : GameState) : Nat :=
  s.deck.length + s.discard.length + handCards s + drawnCount s

/-- Every hand holds exactly 12 cards. -/
def HandsOK (s : GameState) : Prop :=
  ∀ p ∈ s.players, p.cards.length = 12

/-- States reachable from `startGame` (2–8 players, per the start
screen's selector) through the engine operations with the slot indices
the UI can produce: grid positions `r*4+c` lie in `0..11`, and the flip
index passed to `discardDrawnAndFlip` is `findFirstFaceDownIndex`, i.e.
in range of a 12-card hand or absent. -/
inductive Reachable : GameState → Prop
  | start (js : List Nat) (pc : Nat) (h2 : 2 ≤ pc) (h8 : pc ≤ 8) :
      Reachable (startGame js pc)
  | flip (s : GameState) (pIndex cIndex : Nat) (hc : cIndex < 12)
      (hs : Reachable s) : Reachable (handleInitFlip s pIndex cIndex)
  | draw (s : GameState) (hs : Reachable s) : Reachable (drawFromDeck s)
  | take (s : GameState) (hs : Reachable s) : Reachable (takeFromDiscard s)
  | place (s : GameState) (k : Nat) (hk : k < 12) (hs : Reachable s) :
      Reachable (placeDrawnAt s k)
  | discardFlip (s : GameState) (idx : Option Nat) (hidx : ∀ i ∈ idx, i < 12)
      (hs : Reachable s) : Reachable (discardDrawnAndFlip s idx)

/-! ## List helper lemmas -/

theorem cons_set_perm {α : Type} (t : List α) :
    ∀ (m : Nat) (a b : α), t.get? m = some b → List.Perm (b :: t.set m a) (a :: t) := by
  induction t with
  | nil => intro m a b h; simp at h
  | cons c t ih =>
    intro m a b h
    cases m with
    | zero =>
      simp only [List.get?_cons_zero, Option.some.injEq] at h
      rw [h]
      simp only [List.set_cons_zero]
      exact List.Perm.swap a b t
    | succ m =>
      simp only [List.get?_cons_succ] at h
      simp only [List.set_cons_succ]
      refine List.Perm.trans (List.Perm.swap c b (t.set m a)) ?_
      refine List.Perm.trans (List.Perm.cons c (ih m a b h)) ?_
      exact List.Perm.swap a c t

theorem set_set_swap_perm {α : Type} (l : List α) :
    ∀ (i j : Nat) (a b : α), l.get? i = some a → l.get? j = some b →
      List.Perm ((l.set i b).set j a) l := by
  induction l with
  | nil => intro i j a b hi _; simp at hi
  | cons c t ih =>
    intro i j a b hi hj
    cases i with
    | zero =>
      simp only [List.get?_cons_zero, Option.some.injEq] at hi
      cases j with
      | zero =>
        simp only [List.get?_cons_zero, Option.some.injEq] at hj
        simp [← hi]
      | succ m =>
        simp only [List.get?_cons_succ] at hj
        simp only [List.set_cons_zero, List.set_cons_succ]
        rw [hi]
        exact cons_set_perm t m a b hj
    | succ n =>
      simp only [List.get?_cons_succ] at hi
      cases j with
      | zero =>
        simp only [List.get?_cons_zero, Option.some.injEq] at hj
        simp only [List.set_cons_succ, List.set_cons_zero]
        rw [hj]
        exact cons_set_perm t n b a hi
      | succ m =>
        simp only [List.get?_cons_succ] at hj
        simp only [List.set_cons_succ]
        exact List.Perm.cons c (ih n m a b hi hj)

theorem swapIdx_perm {α : Type} (l : List α) (i j : Nat) :
    List.Perm (swapIdx l i j) l := by
  rcases hi : l.get? i with _ | a <;> rcases hj : l.get? j with _ | b <;>
    simp only [swapIdx, hi, hj]
  · exact List.Perm.refl l
  · exact List.Perm.refl l
  · exact List.Perm.refl l
  · exact set_set_swap_perm l i j a b hi hj

theorem fyAux_perm {α : Type} :
    ∀ (n : Nat) (js : List Nat) (l : List α), List.Perm (fyAux n js l) l
  | 0, _, l => List.Perm.refl l
  | n + 1, js, l =>
      List.Perm.trans (fyAux_perm n js.tail (swapIdx l (n + 1) (js.headD 0)))
        (swapIdx_perm l (n + 1) (js.headD 0))

theorem shuffle_perm {α : Type} (js : List Nat) (l : List α) :
    List.Perm (shuffle js l) l :=
  fyAux_perm (l.length - 1) js l

theorem buildDeck_perm (js : List Nat) : List.Perm (buildDeck js) baseDeck :=
  shuffle_perm js baseDeck

theorem get?_eq_some_getD {α : Type} :
    ∀ (l : List α) (i : Nat) (d : α), i < l.length → l.get? i = some (l.getD i d)
  | [], i, _, h => absurd h (by simp)
  | _ :: _, 0, _, _ => rfl
  | _ :: t, i + 1, d, h => get?_eq_some_getD t i d (by simpa using h)

theorem set_getD_self {α : Type} :
    ∀ (l : List α) (i : Nat) (d : α), l.set i (l.getD i d) = l
  | [], _, _ => rfl
  | _ :: _, 0, _ => rfl
  | a :: t, i + 1, d => by
      simp only [List.set_cons_succ, List.cons.injEq, true_and]
      exact set_getD_self t i d

theorem getD_mem {α : Type} :
    ∀ (l : List α) (i : Nat) (d : α), i < l.length → l.getD i d ∈ l
  | [], i, _, h => absurd h (by simp)
  | a :: t, 0, d, _ => by simp
  | a :: t, i + 1, d, h => by
      simpa using Or.inr (getD_mem t i d (by simpa using h))

theorem getD_set_self {α : Type} :
    ∀ (l : List α) (i : Nat) (a d : α), i < l.length → (l.set i a).getD i d = a
  | [], i, _, _, h => absurd h (by simp)
  | _ :: _, 0, _, _, _ => rfl
  | _ :: t, i + 1, a, d, h => getD_set_self t i a d (by simpa using h)

theorem sum_map_set {α : Type} (f : α → Nat) :
    ∀ (l : List α) (i : Nat) (a d : α), i < l.length → f a = f (l.getD i d) →
      ((l.set i a).map f).sum = (l.map f).sum := by
  intro l
  induction l with
  | nil => intro i a d h; simp at h
  | cons c t ih =>
    intro i a d h hf
    cases i with
    | zero =>
      simp only [List.getD_cons_zero] at hf
      simp [hf]
    | succ i =>
      simp only [List.getD_cons_succ] at hf
      simp only [List.set_cons_succ, List.map_cons, List.sum_cons]
      rw [ih i a d (by simpa using h) hf]

theorem sum_map_eq_const {α : Type} (f : α → Nat) (c : Nat) :
    ∀ (l : List α), (∀ a ∈ l, f a = c) → (l.map f).sum = c * l.length := by
  intro l
  induction l with
  | nil => intro _; simp
  | cons a t ih =>
    intro h
    simp only [List.map_cons, List.sum_cons, List.length_cons]
    rw [h a (by simp), ih fun b hb => h b (by simp [hb])]
    ring

theorem popN_fst_length : ∀ (n : Nat) (d : List Card), (popN n d).1.length = n
  | 0, _ => rfl
  | n + 1, d => by simp [popN, popN_fst_length n d.dropLast]

theorem popN_snd_length : ∀ (n : Nat) (d : List Card), (popN n d).2.length = d.length - n
  | 0, _ => by simp [popN]
  | n + 1, d => by
      have h := popN_snd_length n d.dropLast
      simp only [popN, h, List.length_dropLast]
      omega

theorem dealFrom_spec : ∀ (n i : Nat) (d : List Card),
    (dealFrom i n d).1.length = n ∧
    (∀ p ∈ (dealFrom i n d).1, p.cards.length = 12) ∧
    (dealFrom i n d).2.length = d.length - 12 * n
  | 0, i, d => by simp [dealFrom]
  | n + 1, i, d => by
      have ih := dealFrom_spec n (i + 1) (popN 12 d).2
      have h1 := popN_fst_length 12 d
      have h2 := popN_snd_length 12 d
      refine ⟨by simp [dealFrom, ih.1], ?_, ?_⟩
      · intro p hp
        simp only [dealFrom, List.mem_cons] at hp
        rcases hp with hp | hp
        · rw [hp]; exact h1
        · exact ih.2.1 p hp
      · simp only [dealFrom]
        rw [ih.2.2, h2]
        omega

/-- The multiset of values prescribed by `CARD_DISTRIBUTION`: each value
replicated by its configured count. -/
def distValues : List Int :=
  (CARD_DISTRIBUTION.map fun p => List.replicate p.2 p.1).flatten

/-- Claim C2 (counterexample): the distribution table's counts sum to
138, not 150 — `buildDeck` returns 138 cards (values 7 through 12 occur
8 times each, so the official game's 150 is not reached). -/
theorem buildDeck_not_150 :
    (buildDeck []).length = 138 ∧ (buildDeck []).length ≠ 150 := by
  constructor
  · decide
  · decide

/-- Claim C2 (amended): `buildDeck()` returns a sequence of exactly 138
cards whose multiset of values matches the `CARD_DISTRIBUTION` table
(value -2 appears 5 times, -1 ten times, 0 fifteen times, 1 through 6
ten times each, 7 through 12 eight times each, and no other values),
with every card's `faceUp` field equal to `false`. -/
theorem buildDeck_distribution (js : List Nat) :
    (buildDeck js).length = 138 ∧
    (∀ c ∈ buildDeck js, c.faceUp = false) ∧
    ((buildDeck js).map Card.value : Multiset Int) = (distValues : Multiset Int) := by
  have hperm := buildDeck_perm js
  refine ⟨hperm.length_eq.trans (by decide), ?_, ?_⟩
  · have hbase : ∀ c ∈ baseDeck, c.faceUp = false := by decide
    intro c hc
    exact hbase c (hperm.mem_iff.mp hc)
  · have hbase : List.Perm (baseDeck.map Card.value) distValues := by decide
    exact Multiset.coe_eq_coe.mpr ((hperm.map Card.value).trans hbase)

/-- Witness for C2's amended theorem at the concrete random stream `[]`:
the all-zero card (which is a member of the deck) is face-down. -/
theorem buildDeck_distribution_witness : defaultCard.faceUp = false :=
  (buildDeck_distribution []).2.1 defaultCard (by decide)

/-! ## The card-count invariant -/

theorem handsOK_set (l : List Player) (i : Nat) (p' : Player)
    (hh : ∀ p ∈ l, p.cards.length = 12) (hp' : p'.cards.length = 12) :
    ∀ p ∈ l.set i p', p.cards.length = 12 := by
  intro p hp
  rcases List.mem_or_eq_of_mem_set hp with h | h
  · exact hh p h
  · rw [h]; exact hp'

theorem startGame_inv (js : List Nat) (pc : Nat) (h8 : pc ≤ 8) :
    totalCards (startGame js pc) = 138 ∧ HandsOK (startGame js pc) := by
  have hdlen : (buildDeck js).length = 138 := (buildDeck_perm js).length_eq.trans (by decide)
  obtain ⟨hplen, hhands, hrest⟩ := dealFrom_spec pc 0 (buildDeck js)
  constructor
  · simp only [totalCards, startGame, handCards, drawnCount, List.length_dropLast,
      List.length_cons, List.length_nil]
    rw [sum_map_eq_const _ 12 _ hhands, hplen, hrest, hdlen]
    omega
  · intro p hp
    exact hhands p hp

theorem drawFromDeck_inv (s : GameState) (h : totalCards s = 138) (hh : HandsOK s) :
    totalCards (drawFromDeck s) = 138 ∧ HandsOK (drawFromDeck s) := by
  by_cases h1 : s.phase ≠ Phase.play
  · simp only [drawFromDeck, if_pos h1]; exact ⟨h, hh⟩
  by_cases h2 : s.drawnCard.isSome
  · simp only [drawFromDeck, if_neg h1, if_pos h2]; exact ⟨h, hh⟩
  cases hd : s.deck.getLast? with
  | none => simp only [drawFromDeck, if_neg h1, if_neg h2, hd]; exact ⟨h, hh⟩
  | some c =>
    simp only [drawFromDeck, if_neg h1, if_neg h2, hd]
    refine ⟨?_, hh⟩
    have hne : s.deck ≠ [] := by intro he; rw [he] at hd; simp at hd
    have hlen : 1 ≤ s.deck.length := by
      cases hq : s.deck with
      | nil => exact absurd hq hne
      | cons a t => simp
    have hdc : s.drawnCard = none := by
      cases hdc : s.drawnCard with
      | none => rfl
      | some x => rw [hdc] at h2; simp at h2
    simp only [totalCards, handCards, drawnCount, hdc, List.length_dropLast] at h ⊢
    omega

theorem takeFromDiscard_inv (s : GameState) (h : totalCards s = 138) (hh : HandsOK s) :
    totalCards (takeFromDiscard s) = 138 ∧ HandsOK (takeFromDiscard s) := by
  by_cases h1 : s.phase ≠ Phase.play
  · simp only [takeFromDiscard, if_pos h1]; exact ⟨h, hh⟩
  by_cases h2 : s.drawnCard.isSome
  · simp only [takeFromDiscard, if_neg h1, if_pos h2]; exact ⟨h, hh⟩
  cases hd : s.discard.getLast? with
  | none => simp only [takeFromDiscard, if_neg h1, if_neg h2, hd]; exact ⟨h, hh⟩
  | some c =>
    simp only [takeFromDiscard, if_neg h1, if_neg h2, hd]
    refine ⟨?_, hh⟩
    have hne : s.discard ≠ [] := by intro he; rw [he] at hd; simp at hd
    have hlen : 1 ≤ s.discard.length := by
      cases hq : s.discard with
      | nil => exact absurd hq hne
      | cons a t => simp
    have hdc : s.drawnCard = none := by
      cases hdc : s.drawnCard with
      | none => rfl
      | some x => rw [hdc] at h2; simp at h2
    simp only [totalCards, handCards, drawnCount, hdc, List.length_dropLast] at h ⊢
    omega

theorem placeDrawnAt_inv (s : GameState) (k : Nat) (hk : k < 12)
    (h : totalCards s = 138) (hh : HandsOK s) :
    totalCards (placeDrawnAt s k) = 138 ∧ HandsOK (placeDrawnAt s k) := by
  cases hdc : s.drawnCard with
  | none => simp only [placeDrawnAt, hdc]; exact ⟨h, hh⟩
  | some dc =>
    simp only [placeDrawnAt, hdc]
    by_cases hcur : s.currentPlayer < s.players.length
    · have hpl : (s.players.getD s.currentPlayer defaultPlayer).cards.length = 12 :=
        hh _ (getD_mem _ _ _ hcur)
      have hset : jsArraySet (s.players.getD s.currentPlayer defaultPlayer).cards k
          { dc with faceUp := true } =
          (s.players.getD s.currentPlayer defaultPlayer).cards.set k { dc with faceUp := true } := by
        unfold jsArraySet
        rw [if_pos (by omega)]
      constructor
      · simp only [totalCards, endTurn, handCards, drawnCount, hdc, List.length_append,
          List.length_cons, List.length_nil] at h ⊢
        rw [hset, sum_map_set _ _ _ _ defaultPlayer hcur (by simp [List.length_set])]
        omega
      · intro p hp
        simp only [endTurn] at hp
        refine handsOK_set s.players s.currentPlayer _ hh ?_ p hp
        simp only [hset, List.length_set]
        exact hpl
    · have hnoop : s.players.set s.currentPlayer
          { s.players.getD s.currentPlayer defaultPlayer with
            cards := jsArraySet (s.players.getD s.currentPlayer defaultPlayer).cards k
              { dc with faceUp := true } } = s.players :=
        List.set_eq_of_length_le (le_of_not_lt hcur)
      constructor
      · simp only [totalCards, endTurn, handCards, drawnCount, hdc, List.length_append,
          List.length_cons, List.length_nil, hnoop] at h ⊢
        omega
      · intro p hp
        simp only [endTurn, hnoop] at hp
        exact hh p hp

theorem discardDrawnAndFlip_inv (s : GameState) (idx : Option Nat)
    (h : totalCards s = 138) (hh : HandsOK s) :
    totalCards (discardDrawnAndFlip s idx) = 138 ∧ HandsOK (discardDrawnAndFlip s idx) := by
  cases hdc : s.drawnCard with
  | none => simp only [discardDrawnAndFlip, hdc]; exact ⟨h, hh⟩
  | some dc =>
    simp only [discardDrawnAndFlip, hdc]
    cases idx with
    | none =>
      constructor
      · simp only [totalCards, endTurn, handCards, drawnCount, hdc, List.length_append,
          List.length_cons, List.length_nil] at h ⊢
        omega
      · intro p hp
        simp only [endTurn] at hp
        exact hh p hp
    | some i =>
      cases hg : (s.players.getD s.currentPlayer defaultPlayer).cards.get? i with
      | none =>
        constructor
        · simp only [totalCards, endTurn, handCards, drawnCount, hdc, hg, List.length_append,
            List.length_cons, List.length_nil] at h ⊢
          omega
        · intro p hp
          simp only [endTurn, hg] at hp
          exact hh p hp
      | some c =>
        by_cases hf : c.faceUp
        · have hnoop : s.players.set s.currentPlayer
              (s.players.getD s.currentPlayer defaultPlayer) = s.players :=
            set_getD_self s.players s.currentPlayer defaultPlayer
          constructor
          · simp only [totalCards, endTurn, handCards, drawnCount, hdc, hg, if_pos hf,
              hnoop, List.length_append, List.length_cons, List.length_nil] at h ⊢
            omega
          · intro p hp
            simp only [endTurn, hg, if_pos hf, hnoop] at hp
            exact hh p hp
        · have hilen : i < (s.players.getD s.currentPlayer defaultPlayer).cards.length := by
            by_contra hcon
            rw [List.get?_eq_none.mpr (le_of_not_lt hcon)] at hg
            exact Option.noConfusion hg
          by_cases hcur : s.currentPlayer < s.players.length
          · constructor
            · simp only [totalCards, endTurn, handCards, drawnCount, hdc, hg, if_neg hf,
                List.length_append, List.length_cons, List.length_nil] at h ⊢
              rw [sum_map_set _ _ _ _ defaultPlayer hcur (by simp [List.length_set])]
              omega
            · intro p hp
              simp only [endTurn, hg, if_neg hf] at hp
              refine handsOK_set s.players s.currentPlayer _ hh ?_ p hp
              simp only [List.length_set]
              exact hh _ (getD_mem _ _ _ hcur)
          · have hnoop : ∀ (q : Player), s.players.set s.currentPlayer q = s.players :=
              fun q => List.set_eq_of_length_le (le_of_not_lt hcur)
            constructor
            · simp only [totalCards, endTurn, handCards, drawnCount, hdc, hg, if_neg hf,
                hnoop, List.length_append, List.length_cons, List.length_nil] at h ⊢
              omega
            · intro p hp
              simp only [endTurn, hg, if_neg hf, hnoop] at hp
              exact hh p hp

theorem handleInitFlip_inv (s : GameState) (pIndex cIndex : Nat) (hc : cIndex < 12)
    (h : totalCards s = 138) (hh : HandsOK s) :
    totalCards (handleInitFlip s pIndex cIndex) = 138 ∧
    HandsOK (handleInitFlip s pIndex cIndex) := by
  by_cases h1 : s.phase ≠ Phase.reveal
  · simp only [handleInitFlip, if_pos h1]; exact ⟨h, hh⟩
  by_cases h2 : pIndex ≠ s.currentPlayer
  · simp only [handleInitFlip, if_neg h1, if_pos h2]; exact ⟨h, hh⟩
  by_cases h3 : 2 ≤ s.revealTargets.getD (s.players.getD pIndex defaultPlayer).id 0
  · simp only [handleInitFlip, if_neg h1, if_neg h2, if_pos h3]; exact ⟨h, hh⟩
  -- the handler proceeds: the hands either stay unchanged or one in-range
  -- slot is overwritten, so the per-hand counts are untouched
  have key : ∀ ps' : List Player,
      (ps' = s.players ∨
        ps' = s.players.set pIndex
          { s.players.getD pIndex defaultPlayer with
            cards := jsArraySet (s.players.getD pIndex defaultPlayer).cards cIndex
              (jsSpread ((s.players.getD pIndex defaultPlayer).cards.get? cIndex) true) }) →
      ((ps'.map fun p => p.cards.length).sum = (s.players.map fun p => p.cards.length).sum ∧
        ∀ p ∈ ps', p.cards.length = 12) := by
    intro ps' hps'
    rcases hps' with rfl | rfl
    · exact ⟨rfl, hh⟩
    · by_cases hp : pIndex < s.players.length
      · have hpl : (s.players.getD pIndex defaultPlayer).cards.length = 12 :=
          hh _ (getD_mem _ _ _ hp)
        have hset : jsArraySet (s.players.getD pIndex defaultPlayer).cards cIndex
            (jsSpread ((s.players.getD pIndex defaultPlayer).cards.get? cIndex) true) =
            (s.players.getD pIndex defaultPlayer).cards.set cIndex
              (jsSpread ((s.players.getD pIndex defaultPlayer).cards.get? cIndex) true) := by
          unfold jsArraySet
          rw [if_pos (by omega)]
        constructor
        · rw [hset, sum_map_set _ _ _ _ defaultPlayer hp (by simp [List.length_set])]
        · refine handsOK_set s.players pIndex _ hh ?_
          simp only [hset, List.length_set]
          exact hpl
      · rw [List.set_eq_of_length_le (le_of_not_lt hp)]
        exact ⟨rfl, hh⟩
  simp only [handleInitFlip, if_neg h1, if_neg h2, if_neg h3]
  split
  · split
    · constructor
      · simp only [totalCards, handCards, drawnCount] at h ⊢
        split
        · omega
        · rw [(key _ (Or.inr rfl)).1]; omega
      · intro p hp
        simp only at hp
        revert hp
        split
        · exact fun hp => hh p hp
        · exact fun hp => (key _ (Or.inr rfl)).2 p hp
    · constructor
      · simp only [totalCards, handCards, drawnCount] at h ⊢
        split
        · omega
        · rw [(key _ (Or.inr rfl)).1]; omega
      · intro p hp
        simp only at hp
        revert hp
        split
        · exact fun hp => hh p hp
        · exact fun hp => (key _ (Or.inr rfl)).2 p hp
  · constructor
    · simp only [totalCards, handCards, drawnCount] at h ⊢
      split
      · omega
      · rw [(key _ (Or.inr rfl)).1]; omega
    · intro p hp
      simp only at hp
      revert hp
      split
      · exact fun hp => hh p hp
      · exact fun hp => (key _ (Or.inr rfl)).2 p hp

theorem reachable_inv : ∀ (s : GameState), Reachable s → totalCards s = 138 ∧ HandsOK s := by
  intro s h
  induction h with
  | start js pc h2 h8 => exact startGame_inv js pc h8
  | flip s p c hc hs ih => exact handleInitFlip_inv s p c hc ih.1 ih.2
  | draw s hs ih => exact drawFromDeck_inv s ih.1 ih.2
  | take s hs ih => exact takeFromDiscard_inv s ih.1 ih.2
  | place s k hk hs ih => exact placeDrawnAt_inv s k hk ih.1 ih.2
  | discardFlip s idx hidx hs ih => exact discardDrawnAndFlip_inv s idx ih.1 ih.2

/-! ## Concrete states used by witnesses and counterexamples -/

def hand0 : List Card := (List.range 12).map fun k => { id := k, value := 1, faceUp := false }

def hand1 : List Card := (List.range 12).map fun k => { id := 12 + k, value := 2, faceUp := false }

def p0 : Player := { id := 0, name := "Spieler 1", cards := hand0 }

def p1 : Player := { id := 1, name := "Spieler 2", cards := hand1 }

/-- A small play-phase state awaiting acquisition. -/
def sPlay : GameState :=
  { phase := Phase.play
    players := [p0, p1]
    deck := [{ id := 100, value := 5, faceUp := false }, { id := 101, value := 7, faceUp := false }]
    discard := [{ id := 102, value := 3, faceUp := true }]
    currentPlayer := 0
    revealTargets := [2, 2]
    drawnCard := none }

/-- The same state while a drawn card is held (awaiting resolution). -/
def sDrawn : GameState :=
  { sPlay with drawnCard := some { id := 103, value := 9, faceUp := true } }

/-- A full two-player game opening: `startGame` followed by all four
initial reveals (each player flips slots 0 and 1), which reaches the
play phase. -/
def revealTrace : GameState :=
  handleInitFlip (handleInitFlip (handleInitFlip
    (handleInitFlip (startGame [] 2) 0 0) 0 1) 1 0) 1 1

/-! ## Claim C1 -/

/-- Claim C1 (counterexample): conservation fails as stated on two
counts.  The total after `startGame` is 138, not 150 (the distribution
sums to 138); and even the 138 total is not preserved by the engine
operations at an out-of-range slot: after reaching the play phase and
drawing, `placeDrawnAt 12` leaves 139 cards in play (the hand grows to
13 slots while the discard also receives an entry). -/
theorem conservation_counterexample :
    totalCards (startGame [] 2) = 138 ∧
    totalCards (startGame [] 2) ≠ 150 ∧
    totalCards (placeDrawnAt (drawFromDeck revealTrace) 12) = 139 := by
  refine ⟨by decide, by decide, by decide⟩

/-- Claim C1 (amended): for every state reachable from `startGame` (2–8
players) via the engine operations `revealCard`, `drawFromDeck`,
`takeFromDiscard`, `placeDrawnAt` and `discardAndFlip` with slot indices
in the 3×4 grid's range 0..11 (the only indices the UI produces), the
number of cards in the deck, plus the discard, plus all hands, plus one
if `drawnCard` is present, equals 138 — the sum of the
`CARD_DISTRIBUTION` counts. -/
theorem conservation_of_cards (s : GameState) (h : Reachable s) : totalCards s = 138 :=
  (reachable_inv s h).1

/-- Witness for C1 (amended) on a concrete reachable state. -/
theorem conservation_of_cards_witness : totalCards (drawFromDeck (startGame [] 2)) = 138 :=
  conservation_of_cards _ (Reachable.draw _ (Reachable.start [] 2 (by decide) (by decide)))

/-! ## Claim C3 -/

def p0r : Player :=
  { id := 0, name := "Spieler 1", cards := hand0.set 0 { id := 0, value := 1, faceUp := true } }

/-- A reveal-phase state in which the current player's slot 0 is already
face-up and nobody has spent a reveal yet. -/
def s3 : GameState :=
  { phase := Phase.reveal
    players := [p0r, p1]
    deck := []
    discard := []
    currentPlayer := 0
    revealTargets := [0, 0]
    drawnCard := none }

/-- Claim C3 evaluated at the failing input: revealing an already
face-up card is not a complete no-op.  The hands stay unchanged, but the
reveal counter still increments (0 → 1), so the state differs; a second
such call even completes the player's "two reveals" and passes the turn
to player 1 although no new card was revealed. -/
theorem revealCard_faceUp_not_noop :
    (handleInitFlip s3 0 0).players = s3.players ∧
    s3.revealTargets = [0, 0] ∧
    (handleInitFlip s3 0 0).revealTargets = [1, 0] ∧
    handleInitFlip s3 0 0 ≠ s3 ∧
    (handleInitFlip (handleInitFlip s3 0 0) 0 0).currentPlayer = 1 := by
  refine ⟨by decide, by decide, by decide, by decide, by decide⟩

/-! ## Claim C4 -/

/-- Claim C4 (counterexample): `placeDrawnAt` with the out-of-range slot
index 12 while a drawn card is present is not a state-preserving no-op:
the active player's hand grows to 13 cards and the turn advances. -/
theorem placeDrawnAt_out_of_range_changes_state :
    placeDrawnAt sDrawn 12 ≠ sDrawn ∧
    ((placeDrawnAt sDrawn 12).players.getD 0 defaultPlayer).cards.length = 13 ∧
    (placeDrawnAt sDrawn 12).currentPlayer = 1 := by
  refine ⟨by decide, by decide, by decide⟩

/-- Claim C4 (amended): drawing from an empty deck in the play phase and
taking from an empty discard pile are silent no-ops that leave the state
unchanged.  `placeDrawnAt` with the out-of-range slot index 12 on a full
12-card hand, however, is not a no-op: it appends the drawn card
(face-up) as a 13th hand slot, pushes onto the discard the face-up
spread of the undefined slot read, clears `drawnCard`, and advances the
turn cyclically. -/
theorem invalid_input_edge_policy (s : GameState) :
    (s.phase = Phase.play → s.drawnCard = none → s.deck = [] → drawFromDeck s = s) ∧
    (s.phase = Phase.play → s.drawnCard = none → s.discard = [] → takeFromDiscard s = s) ∧
    (∀ dc : Card, s.drawnCard = some dc → s.currentPlayer < s.players.length →
      (s.players.getD s.currentPlayer defaultPlayer).cards.length = 12 →
      ((placeDrawnAt s 12).players.getD s.currentPlayer defaultPlayer).cards =
        (s.players.getD s.currentPlayer defaultPlayer).cards ++ [{ dc with faceUp := true }] ∧
      (placeDrawnAt s 12).discard = s.discard ++ [jsSpread none true] ∧
      (placeDrawnAt s 12).drawnCard = none ∧
      (placeDrawnAt s 12).currentPlayer = (s.currentPlayer + 1) % s.players.length) := by
  refine ⟨?_, ?_, ?_⟩
  · intro hph hdc hdk
    simp [drawFromDeck, hph, hdc, hdk]
  · intro hph hdc hds
    simp [takeFromDiscard, hph, hdc, hds]
  · intro dc hdc hcur hlen
    have hget : (s.players.getD s.currentPlayer defaultPlayer).cards.get? 12 = none :=
      List.get?_eq_none.mpr (by omega)
    have hset : jsArraySet (s.players.getD s.currentPlayer defaultPlayer).cards 12
        { dc with faceUp := true } =
        (s.players.getD s.currentPlayer defaultPlayer).cards ++ [{ dc with faceUp := true }] := by
      unfold jsArraySet
      rw [if_neg (by omega), hlen]
      simp
    simp only [placeDrawnAt, hdc, hget, hset, endTurn]
    refine ⟨?_, ?_, ?_, ?_⟩
    · rw [getD_set_self _ _ _ _ hcur]
    · trivial
    · trivial
    · simp [List.length_set]

/-- Witness for C4 (amended) at concrete states: the empty-deck and
empty-discard no-ops, and the observable effects of `placeDrawnAt 12`. -/
theorem invalid_input_edge_policy_witness :
    drawFromDeck { sPlay with deck := [] } = { sPlay with deck := [] } ∧
    takeFromDiscard { sPlay with discard := [] } = { sPlay with discard := [] } ∧
    (placeDrawnAt sDrawn 12).drawnCard = none :=
  ⟨(invalid_input_edge_policy _).1 rfl rfl rfl,
   (invalid_input_edge_policy _).2.1 rfl rfl rfl,
   ((invalid_input_edge_policy sDrawn).2.2 _ rfl (by decide) (by decide)).2.2.1⟩

/-! ## Claim C5 -/

def pA : Player :=
  { id := 0, name := "Spieler 1",
    cards := (hand0.set 0 { id := 0, value := 2, faceUp := true }).set 1
      { id := 1, value := 3, faceUp := true } }

def pB : Player :=
  { id := 1, name := "Spieler 2",
    cards := (hand1.set 0 { id := 12, value := 3, faceUp := true }).set 1
      { id := 13, value := 12, faceUp := false } }

/-- A reveal-phase state in which player 0 has already revealed 2 and 3
(sum 5) and player 1 has revealed a 3 and is about to reveal the 12 at
slot 1. -/
def s5 : GameState :=
  { phase := Phase.reveal
    players := [pA, pB]
    deck := []
    discard := []
    currentPlayer := 1
    revealTargets := [2, 1]
    drawnCard := none }

/-- Claim C5 evaluated at the failing input: the final reveal completes
the reveal phase with visible sums [5, 15] — the maximum belongs to
player 1 — yet the engine selects player 0, because the starter sums are
computed from the stale pre-flip snapshot ([5, 3], where player 1's
just-revealed 12 is missing). -/
theorem starter_selection_stale :
    (handleInitFlip s5 1 1).phase = Phase.play ∧
    (handleInitFlip s5 1 1).players.map visibleSum = [5, 15] ∧
    jsIndexOf ((handleInitFlip s5 1 1).players.map visibleSum)
      (jsMaxList ((handleInitFlip s5 1 1).players.map visibleSum)) = 1 ∧
    (handleInitFlip s5 1 1).currentPlayer = 0 := by
  refine ⟨by decide, by decide, by decide, by decide⟩

/-! ## Claim C6 -/

/-- Claim C6: in a play-phase state with a drawn card and any slot index
k in 0..11, `placeDrawnAt k` replaces the active player's slot k with
the drawn card marked face-up, appends the previous occupant of slot k —
its original value, forced face-up — to the top of the discard pile,
clears `drawnCard`, and advances `currentPlayerIndex` to
(currentPlayerIndex + 1) mod playerCount. -/
theorem placeDrawnAt_swap (s : GameState) (dc : Card) (k : Nat)
    (hph : s.phase = Phase.play)
    (hdc : s.drawnCard = some dc)
    (hcur : s.currentPlayer < s.players.length)
    (hlen : (s.players.getD s.currentPlayer defaultPlayer).cards.length = 12)
    (hk : k < 12) :
    placeDrawnAt s k =
      { s with
        players := s.players.set s.currentPlayer
          { s.players.getD s.currentPlayer defaultPlayer with
            cards := (s.players.getD s.currentPlayer defaultPlayer).cards.set k
              { dc with faceUp := true } }
        discard := s.discard ++
          [{ (s.players.getD s.currentPlayer defaultPlayer).cards.getD k defaultCard with
             faceUp := true }]
        drawnCard := none
        currentPlayer := (s.currentPlayer + 1) % s.players.length } := by
  have hget : (s.players.getD s.currentPlayer defaultPlayer).cards.get? k =
      some ((s.players.getD s.currentPlayer defaultPlayer).cards.getD k defaultCard) :=
    get?_eq_some_getD _ _ _ (by omega)
  have hset : jsArraySet (s.players.getD s.currentPlayer defaultPlayer).cards k
      { dc with faceUp := true } =
      (s.players.getD s.currentPlayer defaultPlayer).cards.set k { dc with faceUp := true } := by
    unfold jsArraySet
    rw [if_pos (by omega)]
  simp only [placeDrawnAt, hdc, hget, hset, endTurn, jsSpread, List.length_set]

/-- Witness for C6 at the concrete state `sDrawn`, slot 2. -/
theorem placeDrawnAt_swap_witness :
    (placeDrawnAt sDrawn 2).drawnCard = none ∧ (placeDrawnAt sDrawn 2).currentPlayer = 1 := by
  have h := placeDrawnAt_swap sDrawn { id := 103, value := 9, faceUp := true } 2 rfl rfl
    (by decide) (by decide) (by decide)
  rw [h]
  exact ⟨rfl, by decide⟩

/-! ## Claim C7 -/

/-- Claim C7: in a play-phase state with a drawn card,
`discardAndFlip slotIndexToFlip` pushes the drawn card face-up onto the
top of the discard pile, clears `drawnCard`, advances the turn
cyclically, leaves the deck and phase alone, and touches the hands only
as follows: with no index, or with an index whose slot is already
face-up, the players are unchanged; with an in-range index whose slot is
face-down, exactly that slot is flipped face-up. -/
theorem discardDrawnAndFlip_spec (s : GameState) (dc : Card) (idx : Option Nat)
    (hph : s.phase = Phase.play)
    (hdc : s.drawnCard = some dc)
    (hcur : s.currentPlayer < s.players.length)
    (hlen : (s.players.getD s.currentPlayer defaultPlayer).cards.length = 12)
    (hidx : ∀ i ∈ idx, i < 12) :
    (discardDrawnAndFlip s idx).discard = s.discard ++ [{ dc with faceUp := true }] ∧
    (discardDrawnAndFlip s idx).drawnCard = none ∧
    (discardDrawnAndFlip s idx).currentPlayer = (s.currentPlayer + 1) % s.players.length ∧
    (discardDrawnAndFlip s idx).deck = s.deck ∧
    (discardDrawnAndFlip s idx).phase = s.phase ∧
    (idx = none → (discardDrawnAndFlip s idx).players = s.players) ∧
    (∀ i, idx = some i →
      ((s.players.getD s.currentPlayer defaultPlayer).cards.getD i defaultCard).faceUp = true →
      (discardDrawnAndFlip s idx).players = s.players) ∧
    (∀ i, idx = some i →
      ((s.players.getD s.currentPlayer defaultPlayer).cards.getD i defaultCard).faceUp = false →
      (discardDrawnAndFlip s idx).players = s.players.set s.currentPlayer
        { s.players.getD s.currentPlayer defaultPlayer with
          cards := (s.players.getD s.currentPlayer defaultPlayer).cards.set i
            { (s.players.getD s.currentPlayer defaultPlayer).cards.getD i defaultCard with
              faceUp := true } }) := by
  cases idx with
  | none =>
    simp only [discardDrawnAndFlip, hdc, endTurn]
    refine ⟨by trivial, by trivial, by trivial, by trivial, by trivial, fun _ => by trivial,
      ?_, ?_⟩
    · intro i hi
      exact absurd hi (by simp)
    · intro i hi
      exact absurd hi (by simp)
  | some i =>
    have hi12 : i < 12 := hidx i rfl
    have hget : (s.players.getD s.currentPlayer defaultPlayer).cards.get? i =
        some ((s.players.getD s.currentPlayer defaultPlayer).cards.getD i defaultCard) :=
      get?_eq_some_getD _ _ _ (by omega)
    by_cases hf : ((s.players.getD s.currentPlayer defaultPlayer).cards.getD i
        defaultCard).faceUp
    · have hnoop : s.players.set s.currentPlayer
          (s.players.getD s.currentPlayer defaultPlayer) = s.players :=
        set_getD_self s.players s.currentPlayer defaultPlayer
      simp only [discardDrawnAndFlip, hdc, hget, if_pos hf, endTurn, hnoop]
      refine ⟨by trivial, by trivial, by trivial, by trivial, by trivial,
        fun h => absurd h (by simp), fun _ _ _ => by trivial, ?_⟩
      · intro j hj hfd
        cases hj
        rw [hf] at hfd
        exact absurd hfd (by simp)
    · simp only [discardDrawnAndFlip, hdc, hget, if_neg hf, endTurn, List.length_set]
      refine ⟨by trivial, by trivial, by trivial, by trivial, by trivial,
        fun h => absurd h (by simp), ?_, ?_⟩
      · intro j hj hfu
        cases hj
        rw [hfu] at hf
        exact absurd rfl hf
      · intro j hj _
        cases hj
        trivial

/-- Witness for C7 at the concrete state `sDrawn`, flipping slot 0. -/
theorem discardDrawnAndFlip_spec_witness :
    (discardDrawnAndFlip sDrawn (some 0)).drawnCard = none ∧
    (discardDrawnAndFlip sDrawn (some 0)).currentPlayer = 1 := by
  have h := discardDrawnAndFlip_spec sDrawn { id := 103, value := 9, faceUp := true } (some 0)
    rfl rfl (by decide) (by decide) (by intro i hi; cases hi; omega)
  refine ⟨h.2.1, ?_⟩
  rw [h.2.2.1]
  decide

/-! ## Claim C8 -/

/-- Claim C8: in the reveal phase, `revealCard` called by a non-current
player, or for the current player whose reveal progress already equals
2, changes no state at all. -/
theorem reveal_gating (s : GameState) (pIndex cIndex : Nat)
    (hph : s.phase = Phase.reveal) :
    (pIndex ≠ s.currentPlayer → handleInitFlip s pIndex cIndex = s) ∧
    (s.revealTargets.getD (s.players.getD pIndex defaultPlayer).id 0 = 2 →
      handleInitFlip s pIndex cIndex = s) := by
  have h1 : ¬(s.phase ≠ Phase.reveal) := by simp [hph]
  constructor
  · intro hne
    simp only [handleInitFlip, if_neg h1, if_pos hne]
  · intro hrev
    by_cases hne : pIndex ≠ s.currentPlayer
    · simp only [handleInitFlip, if_neg h1, if_pos hne]
    · simp only [handleInitFlip, if_neg h1, if_neg hne, if_pos (by omega :
        2 ≤ s.revealTargets.getD (s.players.getD pIndex defaultPlayer).id 0)]

/-- A reveal-phase state in which both players already have reveal
progress 2. -/
def sReveal : GameState := { sPlay with phase := Phase.reveal }

/-- Witness for C8 at the concrete state `sReveal`. -/
theorem reveal_gating_witness :
    handleInitFlip sReveal 1 0 = sReveal ∧ handleInitFlip sReveal 0 0 = sReveal :=
  ⟨(reveal_gating sReveal 1 0 rfl).1 (by decide),
   (reveal_gating sReveal 0 0 rfl).2 (by decide)⟩

/-! ## Claim C9 -/

/-- Claim C9: from a play-phase state with no drawn card and a nonempty
discard whose face-up top is c, `takeFromDiscard` followed by
`discardAndFlip` with no flip index restores the discard pile exactly
(same cards, values, ids and order), leaves the deck and every hand
unchanged, and its only net effect is the cyclic turn advance. -/
theorem take_then_discard_roundtrip (s : GameState) (ds : List Card) (c : Card)
    (hph : s.phase = Phase.play)
    (hdc : s.drawnCard = none)
    (hdisc : s.discard = ds ++ [c])
    (hface : c.faceUp = true) :
    discardDrawnAndFlip (takeFromDiscard s) none =
      { s with currentPlayer := (s.currentPlayer + 1) % s.players.length } := by
  obtain ⟨cid, cv, cf⟩ := c
  simp only at hface
  subst hface
  have h1 : takeFromDiscard s =
      { s with discard := ds, drawnCard := some { id := cid, value := cv, faceUp := true } } := by
    simp only [takeFromDiscard, hph, hdc, hdisc]
    simp [List.getLast?_concat, List.dropLast_concat]
  rw [h1]
  simp only [discardDrawnAndFlip, endTurn]
  simp [hdc, hdisc]

/-- Witness for C9 at the concrete state `sPlay`. -/
theorem take_then_discard_roundtrip_witness :
    discardDrawnAndFlip (takeFromDiscard sPlay) none = { sPlay with currentPlayer := 1 } := by
  have h := take_then_discard_roundtrip sPlay [] { id := 102, value := 3, faceUp := true }
    rfl rfl rfl rfl
  rw [h]
  decide

/-! ## Claim C10 -/

/-- Claim C10: in a play-phase state with no drawn card, a successful
`drawFromDeck` only removes the deck's top card and stores it (face-up)
as the drawn card, and a successful `takeFromDiscard` only removes the
discard's top card and stores it (face state unchanged) as the drawn
card; hands, phase and currentPlayerIndex are untouched. -/
theorem acquisition_frame (s : GameState) :
    (∀ (es : List Card) (c : Card), s.phase = Phase.play → s.drawnCard = none →
      s.deck = es ++ [c] →
      drawFromDeck s = { s with deck := es, drawnCard := some { c with faceUp := true } }) ∧
    (∀ (es : List Card) (c : Card), s.phase = Phase.play → s.drawnCard = none →
      s.discard = es ++ [c] →
      takeFromDiscard s = { s with discard := es, drawnCard := some c }) := by
  constructor
  · intro es c hph hdc hdk
    simp only [drawFromDeck, hph, hdc, hdk]
    simp [List.getLast?_concat, List.dropLast_concat]
  · intro es c hph hdc hds
    simp only [takeFromDiscard, hph, hdc, hds]
    simp [List.getLast?_concat, List.dropLast_concat]

/-- Witness for C10 at the concrete state `sPlay`. -/
theorem acquisition_frame_witness :
    drawFromDeck sPlay =
      { sPlay with deck := [{ id := 100, value := 5, faceUp := false }],
                   drawnCard := some { id := 101, value := 7, faceUp := true } } ∧
    takeFromDiscard sPlay =
      { sPlay with discard := [],
                   drawnCard := some { id := 102, value := 3, faceUp := true } } := by
  constructor
  · have h := (acquisition_frame sPlay).1 [{ id := 100, value := 5, faceUp := false }]
      { id := 101, value := 7, faceUp := false } rfl rfl rfl
    rw [h]
  · have h := (acquisition_frame sPlay).2 [] { id := 102, value := 3, faceUp := true }
      rfl rfl rfl
    rw [h]

end Skyjo
